import Mathlib

/-!
Verification development for the MultilingualBudgetApp backend core:
a shallow embedding of `fastapi_backend/services/document_processor.py`
(`DocumentAnalyzer`) and `fastapi_backend/services/ai_service.py`
(`AIFinancialAdvisor`), together with theorems about the embedded
functions.

Modelling conventions:
* Python dictionaries with string keys are embedded as insertion-ordered
  association lists (`PyDict`); `recGet`/`recSet` model `d[k]` reads and
  writes with Python's replace-in-place-or-append semantics.
* Python values flowing through analysis records are embedded as the
  inductive type `Value` (strings, non-negative integers, `None`, lists,
  dicts).  Counts in the source are non-negative, so `num` carries `Nat`.
* `pandas.DataFrame` is embedded as a list of named, dtype-tagged columns
  of optional string cells (`none` models a missing value / NaN).
* Operations that can raise in Python (joining a non-list, indexing,
  calling `.lower()` on a non-string, ordering comparisons) are embedded
  as `Option`-returning functions; `none` models the raised exception.
* The language-model collaborator is external: functions that consume a
  model completion take the completion string as an explicit argument,
  and prompt construction is embedded as the pure function building the
  ordered message list handed to the model.
* Reading a file from disk is external I/O: `analyze_document` takes the
  parsed content of the file (`FileData`) as an explicit argument next to
  the path suffix, and `FileData.invalid` models an unreadable or corrupt
  file whose format-specific parse raises.  Floating-point summary
  statistics (mean/std/quantiles) of `DataFrame.describe` are outside the
  embedding; only the presence of the statistics entry and its integer
  `count` field are modelled.  Exact text produced by the third-party
  `tabulate` renderer is likewise approximated by a simple pipe-format
  renderer; no theorem below depends on its exact shape.
-/

/-- Python `str.lower()` (ASCII case folding, which covers every string the
analyzer compares case-insensitively). -/
def pyLower (s : String) : String := ⟨s.data.map Char.toLower⟩

/-- Python `str.strip()`: drop leading and trailing whitespace. -/
def pyStrip (s : String) : String :=
  ⟨((s.data.dropWhile Char.isWhitespace).reverse.dropWhile Char.isWhitespace).reverse⟩

/-- Python `s[:n]` slicing on strings (by code point, as in Python 3). -/
def pyTake (s : String) (n : Nat) : String := ⟨s.data.take n⟩

/-- Python `sep.join(parts)` for a list of strings. -/
def joinSep (sep : String) : List String → String
  | [] => ""
  | [x] => x
  | x :: xs => x ++ sep ++ joinSep sep xs

/-- Python `needle in haystack` substring test on strings. -/
def containsSub (needle haystack : String) : Bool :=
  decide (needle.data <:+: haystack.data)

/-- Helper for Python `str.split()` with no separator: accumulate maximal
runs of non-whitespace characters. -/
def splitWsAux : List Char → List Char → List String
  | [], acc => if acc.isEmpty then [] else [⟨acc.reverse⟩]
  | c :: cs, acc =>
    if c.isWhitespace then
      if acc.isEmpty then splitWsAux cs [] else ⟨acc.reverse⟩ :: splitWsAux cs []
    else splitWsAux cs (c :: acc)

/-- Python `s.split()` (split on whitespace runs, no empty tokens). -/
def pySplitWs (s : String) : List String := splitWsAux s.data []

/-- Embedded Python values stored in analysis records. -/
inductive Value where
  | str (s : String)
  | num (n : Nat)
  | null
  | list (vs : List Value)
  | dict (kvs : List (String × Value))

/-- Insertion-ordered string-keyed dictionary, the shape of every analysis
record the backend builds. -/
def PyDict : Type := List (String × Value)

/-- Lookup in an association list, i.e. Python `d.get(k)`. -/
def assoc {α : Type} : List (String × α) → String → Option α
  | [], _ => none
  | (k, v) :: kvs, key => if k = key then some v else assoc kvs key

/-- Python `d.get(k)` on a record. -/
def recGet (r : PyDict) (k : String) : Option Value := assoc r k

/-- Python `d.get(k, default)` on a record. -/
def recGetD (r : PyDict) (k : String) (d : Value) : Value := (recGet r k).getD d

/-- Python `d[k] = v`: replace the binding in place when the key exists,
append it otherwise (insertion-ordered dict semantics). -/
def recSet {α : Type} : List (String × α) → String → α → List (String × α)
  | [], key, v => [(key, v)]
  | (k, w) :: kvs, key, v =>
    if k = key then (k, v) :: kvs else (k, w) :: recSet kvs key v

mutual

/-- Python `str(v)` for an embedded value. -/
def pyStr : Value → String
  | .str s => s
  | .num n => toString n
  | .null => "None"
  | .list vs => "[" ++ joinSep ", " (pyReprList vs) ++ "]"
  | .dict kvs => "\x7b" ++ joinSep ", " (pyReprKVs kvs) ++ "\x7d"

/-- Python `repr(v)` as used when rendering list/dict elements.  String
elements are wrapped in single quotes; Python's alternate quoting and
escaping for strings that themselves contain quote or control characters
only ever inserts non-alphabetic characters and is not modelled. -/
def pyRepr : Value → String
  | .str s => "'" ++ s ++ "'"
  | .num n => toString n
  | .null => "None"
  | .list vs => "[" ++ joinSep ", " (pyReprList vs) ++ "]"
  | .dict kvs => "\x7b" ++ joinSep ", " (pyReprKVs kvs) ++ "\x7d"

/-- Renders each element of a Python list with `repr`. -/
def pyReprList : List Value → List String
  | [] => []
  | v :: vs => pyRepr v :: pyReprList vs

/-- Renders each binding of a Python dict with `repr`. -/
def pyReprKVs : List (String × Value) → List String
  | [] => []
  | (k, v) :: kvs => ("'" ++ k ++ "': " ++ pyRepr v) :: pyReprKVs kvs

end

/-- Python truthiness of an embedded value. -/
def pyTruthy : Value → Bool
  | .str s => !s.isEmpty
  | .num n => n != 0
  | .null => false
  | .list vs => !vs.isEmpty
  | .dict kvs => !kvs.isEmpty

/-- Python truthiness of a `d.get(k)` result (`None` when absent). -/
def pyTruthyOpt : Option Value → Bool
  | none => false
  | some v => pyTruthy v

/-- Extracts the string payload of a `Value`, when there is one. -/
def strOf : Value → Option String
  | .str s => some s
  | _ => none

/-- Extracts the string payloads of a list of values, failing on the first
non-string (as `str.join` would with a `TypeError`). -/
def strsOf : List Value → Option (List String)
  | [] => some []
  | v :: vs =>
    match strOf v, strsOf vs with
    | some s, some ss => some (s :: ss)
    | _, _ => none

/-- Python `sep.join(v)`: joins a list of strings, iterates a string by
characters, and raises `TypeError` (here `none`) on anything else. -/
def pyJoin (sep : String) : Value → Option String
  | .str s => some (joinSep sep (s.data.map (fun c => String.singleton c)))
  | .list vs => (strsOf vs).map (fun xs => joinSep sep xs)
  | _ => none

/-- Python `len(v)` for sized values; `none` models the `TypeError` raised
on numbers and `None`. -/
def pyLen : Value → Option Nat
  | .str s => some s.length
  | .list vs => some vs.length
  | .dict kvs => some kvs.length
  | _ => none

/-- Python `v[i]` for a non-negative index; `none` models `IndexError` and
`TypeError`. -/
def pyIndex : Value → Nat → Option Value
  | .list vs, i => vs.get? i
  | .str s, i => (s.data.get? i).map (fun c => Value.str (String.singleton c))
  | _, _ => none

/-- Python `v > 0`; `none` models the `TypeError` raised when ordering a
non-number against an integer. -/
def pyGtZero : Value → Option Bool
  | .num n => some (decide (0 < n))
  | _ => none

/-- Python `v.lower()`; `none` models the `AttributeError` raised on a
non-string. -/
def pyLowerV : Value → Option String
  | .str s => some (pyLower s)
  | _ => none

/-- Python `v == lit` for a string literal `lit` (only equal when `v` is
that string). -/
def valEqStr (v : Value) (lit : String) : Bool :=
  match v with
  | .str s => s == lit
  | _ => false

/-! ## DataFrame model (`pandas` as used by `DocumentAnalyzer`) -/

/-- Column dtypes distinguished by `_analyze_dataframe`. -/
inductive Dtype where
  | int64
  | float64
  | object
  | datetime

/-- Whether `select_dtypes(include=['number'])` keeps the dtype. -/
def Dtype.isNumeric : Dtype → Bool
  | .int64 => true
  | .float64 => true
  | _ => false

/-- Whether `select_dtypes(include=['object'])` keeps the dtype. -/
def Dtype.isObject : Dtype → Bool
  | .object => true
  | _ => false

/-- Whether `select_dtypes(include=['datetime'])` keeps the dtype. -/
def Dtype.isDatetime : Dtype → Bool
  | .datetime => true
  | _ => false

/-- Name of the dtype as rendered by `df.dtypes.astype(str)`. -/
def dtypeName : Dtype → String
  | .int64 => "int64"
  | .float64 => "float64"
  | .object => "object"
  | .datetime => "datetime64[ns]"

/-- One DataFrame column: label, inferred dtype, and cells top to bottom
(`none` is a missing value / NaN). -/
structure Column where
  name : String
  dtype : Dtype
  cells : List (Option String)

/-- A pandas DataFrame: row count and ordered columns. -/
structure DataFrame where
  nrows : Nat
  cols : List Column

/-- Python `df.columns` as a list of labels. -/
def dfColumnNames (df : DataFrame) : List String := df.cols.map Column.name

/-- Python `df.select_dtypes(include=['number']).columns` source columns. -/
def dfNumericCols (df : DataFrame) : List Column :=
  df.cols.filter (fun c => c.dtype.isNumeric)

/-- Python `df.empty`: true when either axis has length zero. -/
def dfEmpty (df : DataFrame) : Bool := df.nrows == 0 || df.cols.isEmpty

/-- Python `df.head(n)`. -/
def dfHead (df : DataFrame) (n : Nat) : DataFrame :=
  { nrows := min df.nrows n, cols := df.cols.map (fun c => { c with cells := c.cells.take n }) }

/-- Cell rendering used by the table renderer (`nan` for missing). -/
def cellText : Option String → String
  | none => "nan"
  | some s => s

/-- Row `i` of a DataFrame as rendered strings. -/
def dfRow (df : DataFrame) (i : Nat) : List String :=
  df.cols.map (fun c => cellText ((c.cells.get? i).getD none))

/-- Simplified model of `tabulate(df, headers='keys', tablefmt='pipe')`:
a pipe-separated header, a rule line, and one line per row.  No theorem
below depends on the exact rendered text of a non-empty preview. -/
def tabulateDf (df : DataFrame) : String :=
  joinSep "\n"
    (("| " ++ joinSep " | " (dfColumnNames df) ++ " |") ::
      "|---|" ::
      (List.range df.nrows).map (fun i => "| " ++ joinSep " | " (dfRow df i) ++ " |"))

/-- Count of non-missing cells in a column (`describe()`'s `count` row). -/
def colCount (c : Column) : Nat := c.cells.countP (fun x => x.isSome)

/-- Model of `df[numeric_cols].describe().to_dict()`: one entry per numeric
column.  The floating-point statistics (mean/std/min/quantiles/max) are
outside the embedding; the integer `count` statistic is kept. -/
def describeDict (numeric_cols : List Column) : Value :=
  Value.dict (numeric_cols.map (fun c =>
    (c.name, Value.dict [("count", Value.num (colCount c))])))

/-- Simplified model of the rendered `describe()` table appended to CSV
text content; no theorem depends on its exact text. -/
def describeTable (numeric_cols : List Column) : String :=
  joinSep "\n"
    (("| " ++ joinSep " | " (numeric_cols.map Column.name) ++ " |") ::
      "|---|" ::
      ["| count | " ++ joinSep " | " (numeric_cols.map (fun c => toString (colCount c))) ++ " |"])

/-! ## CSV parsing (`pd.read_csv` with default dtype inference) -/

/-- Raw CSV content after tokenisation: header labels and data rows, each
cell `none` when the field is empty (pandas reads it as NaN). -/
structure CsvData where
  header : List String
  rows : List (List (Option String))

/-- Cells of column `j`, padding short rows with missing values. -/
def colCells (rows : List (List (Option String))) (j : Nat) : List (Option String) :=
  rows.map (fun r => (r.get? j).getD none)

/-- Non-empty all-digit character run. -/
def digitsOnly (ds : List Char) : Bool := !ds.isEmpty && ds.all Char.isDigit

/-- Decimal integer literal as parsed by pandas (optional sign, digits). -/
def isIntLiteral (s : String) : Bool :=
  match s.data with
  | '-' :: ds => digitsOnly ds
  | ds => digitsOnly ds

/-- Body of a decimal float literal: digits with at most one dot and at
least one digit. -/
def floatBody (ds : List Char) : Bool :=
  ds.all (fun c => c.isDigit || c == '.') && decide (ds.count '.' ≤ 1) && ds.any Char.isDigit

/-- Decimal float literal as parsed by pandas (optional sign). -/
def isFloatLiteral (s : String) : Bool :=
  match s.data with
  | '-' :: ds => floatBody ds
  | ds => floatBody ds

/-- Default pandas dtype inference for one column of a freshly read CSV:
a rowless column is `object`; an all-missing column is `float64`; complete
integer data is `int64`; numeric data (possibly with missing values) is
`float64`; anything else is `object`.  `read_csv` does not infer datetime
dtypes without `parse_dates`, so no column is inferred as datetime. -/
def inferDtype (cells : List (Option String)) : Dtype :=
  if cells.isEmpty then .object
  else if cells.all (fun c => c.isNone) then .float64
  else if cells.all (fun c => match c with | some s => isIntLiteral s | none => false) then .int64
  else if cells.all (fun c => match c with | some s => isIntLiteral s || isFloatLiteral s | none => true) then .float64
  else .object

/-- Model of `pd.read_csv` on tokenised content. -/
def read_csv (d : CsvData) : DataFrame :=
  { nrows := d.rows.length,
    cols := d.header.enum.map (fun p =>
      let cs := colCells d.rows p.1
      { name := p.2, dtype := inferDtype cs, cells := cs }) }

/-! ## `DocumentAnalyzer` (document_processor.py) -/

/-- The fixed financial-keyword list of `_analyze_dataframe`. -/
def financial_keywords : List String :=
  ["amount", "price", "cost", "fee", "balance", "total", "sum", "revenue", "income", "expense"]

/-- Column labels whose lowercase form contains a financial keyword, in
original column order (`_analyze_dataframe`'s comprehension). -/
def financialCols (df : DataFrame) : List String :=
  (dfColumnNames df).filter (fun col =>
    financial_keywords.any (fun keyword => containsSub keyword (pyLower col)))

/-- `DocumentAnalyzer._analyze_dataframe`. -/
def analyze_dataframe (df : DataFrame) (data_name : String) : PyDict :=
  let numeric_cols := dfNumericCols df
  let financial_cols := financialCols df
  [("name", Value.str data_name),
   ("rows", Value.num df.nrows),
   ("columns", Value.num df.cols.length),
   ("column_names", Value.list ((dfColumnNames df).map Value.str)),
   ("data_types", Value.dict (df.cols.map (fun c => (c.name, Value.str (dtypeName c.dtype))))),
   ("null_counts", Value.dict (df.cols.map (fun c => (c.name, Value.num (c.cells.countP (fun x => x.isNone)))))),
   ("numeric_columns", Value.list ((numeric_cols.map Column.name).map Value.str)),
   ("text_columns", Value.list (((df.cols.filter (fun c => c.dtype.isObject)).map Column.name).map Value.str)),
   ("date_columns", Value.list (((df.cols.filter (fun c => c.dtype.isDatetime)).map Column.name).map Value.str))]
  ++ (if numeric_cols.isEmpty then [] else [("numeric_statistics", describeDict numeric_cols)])
  ++ (if financial_cols.isEmpty then [] else [("potential_financial_columns", Value.list (financial_cols.map Value.str))])

/-- Extracted text of one parsed PDF page (`page.extract_text()` may
return `None`). -/
def PdfPages : Type := List (Option String)

/-- A parsed Word document: paragraph texts in document order, and tables
in document order, each a list of rows of cell texts. -/
structure WordDoc where
  paragraphs : List String
  tables : List (List (List String))

/-- Parsed content of an uploaded file, as handed to the format-specific
analyzers; `invalid` models a file whose format-specific parse raises. -/
inductive FileData where
  | pdf (pages : List (Option String))
  | word (doc : WordDoc)
  | excel (sheets : List (String × DataFrame))
  | csvText (data : CsvData)
  | image (width : Nat) (height : Nat) (mode : String) (ocrText : String)
  | invalid (desc : String)

/-- Failure modes of `analyze_document` (the source raises `ValueError`
with these message shapes; the spec names them `UnsupportedFormat` and
`AnalysisError`). -/
inductive DocError where
  | unsupportedFormat (msg : String)
  | analysisError (msg : String)

/-- `DocumentAnalyzer._analyze_pdf` on parsed pages. -/
def analyze_pdf (pages : List (Option String)) : PyDict :=
  let text_parts := pages.filterMap (fun page_text =>
    match page_text with
    | some s => if s.isEmpty then none else some s
    | none => none)
  let full_text := joinSep "\n" text_parts
  [("file_type", Value.str "PDF Document"),
   ("page_count", Value.num pages.length),
   ("text_content", Value.str full_text),
   ("word_count", Value.num (pySplitWs full_text).length),
   ("char_count", Value.num full_text.length),
   ("analysis_type", Value.str "text_extraction"),
   ("summary", Value.str ("PDF document with " ++ toString pages.length ++ " pages containing " ++ toString (pySplitWs full_text).length ++ " words"))]

/-- `DocumentAnalyzer._analyze_word_document` on a parsed document. -/
def analyze_word_document (doc : WordDoc) : PyDict :=
  let para_parts := doc.paragraphs.filter (fun p => !(pyStrip p).isEmpty)
  let table_data := doc.tables.flatten.map (fun row => row.map pyStrip)
  let text_parts := para_parts ++ table_data.map (fun row_data => joinSep " | " row_data)
  let full_text := joinSep "\n" text_parts
  [("file_type", Value.str "Word Document"),
   ("paragraph_count", Value.num doc.paragraphs.length),
   ("table_count", Value.num doc.tables.length),
   ("text_content", Value.str full_text),
   ("word_count", Value.num (pySplitWs full_text).length),
   ("char_count", Value.num full_text.length),
   ("analysis_type", Value.str "text_extraction"),
   ("tables", if table_data.isEmpty then Value.null
              else Value.list (table_data.map (fun row => Value.list (row.map Value.str)))),
   ("summary", Value.str ("Word document with " ++ toString doc.paragraphs.length ++ " paragraphs and " ++ toString doc.tables.length ++ " tables"))]

/-- Loop body of `_analyze_excel_file`: fold state is the analysis record,
the accumulated text lines, and the running row/column totals. -/
def excelSheetStep (st : PyDict × List String × Nat × Nat) (p : String × DataFrame) :
    PyDict × List String × Nat × Nat :=
  let analysis := st.1
  let sheet_name := p.1
  let df := p.2
  let sheet_analysis := analyze_dataframe df sheet_name
  let sheetsKvs := match recGetD analysis "sheets" (Value.dict []) with
    | Value.dict kvs => kvs
    | _ => []
  let analysis := recSet analysis "sheets" (Value.dict (recSet sheetsKvs sheet_name (Value.dict sheet_analysis)))
  let text_content := st.2.1 ++
    ["\n--- Sheet: " ++ sheet_name ++ " ---",
     "Rows: " ++ toString df.nrows ++ ", Columns: " ++ toString df.cols.length,
     "Columns: " ++ joinSep ", " (dfColumnNames df)] ++
    (if dfEmpty df then [] else ["Sample data:", tabulateDf (dfHead df 5)])
  (analysis, text_content, st.2.2.1 + df.nrows, st.2.2.2 + df.cols.length)

/-- `DocumentAnalyzer._analyze_excel_file` on parsed sheets. -/
def analyze_excel_file (sheets : List (String × DataFrame)) : PyDict :=
  let analysis : PyDict :=
    [("file_type", Value.str "Excel Spreadsheet"),
     ("sheet_count", Value.num sheets.length),
     ("sheets", Value.dict []),
     ("analysis_type", Value.str "data_analysis"),
     ("summary", Value.str ("Excel file with " ++ toString sheets.length ++ " sheets"))]
  let st := sheets.foldl excelSheetStep (analysis, [], 0, 0)
  let analysis := recSet st.1 "text_content" (Value.str (joinSep "\n" st.2.1))
  let analysis := recSet analysis "total_rows" (Value.num st.2.2.1)
  let analysis := recSet analysis "total_columns" (Value.num st.2.2.2)
  recSet analysis "summary" (Value.str ("Excel file with " ++ toString sheets.length ++ " sheets, " ++ toString st.2.2.1 ++ " total rows"))

/-- `DocumentAnalyzer._analyze_csv_file` on tokenised CSV content. -/
def analyze_csv_file (data : CsvData) : PyDict :=
  let df := read_csv data
  let analysis := analyze_dataframe df "CSV Data"
  let analysis := recSet analysis "file_type" (Value.str "CSV File")
  let analysis := recSet analysis "analysis_type" (Value.str "data_analysis")
  let analysis := recSet analysis "summary"
    (Value.str ("CSV file with " ++ toString df.nrows ++ " rows and " ++ toString df.cols.length ++ " columns"))
  let numeric_cols := dfNumericCols df
  let text_content :=
    ["CSV File Analysis",
     "Rows: " ++ toString df.nrows ++ ", Columns: " ++ toString df.cols.length,
     "Columns: " ++ joinSep ", " (dfColumnNames df)] ++
    (if dfEmpty df then [] else ["\nSample data:", tabulateDf (dfHead df 10)]) ++
    (if numeric_cols.length == 0 then [] else ["\nNumeric columns summary:", describeTable numeric_cols])
  recSet analysis "text_content" (Value.str (joinSep "\n" text_content))

/-- `DocumentAnalyzer._analyze_image` on a decoded image and its OCR
text. -/
def analyze_image (width height : Nat) (mode : String) (text : String) : PyDict :=
  [("file_type", Value.str "Image"),
   ("image_size", Value.list [Value.num width, Value.num height]),
   ("image_mode", Value.str mode),
   ("text_content", Value.str text),
   ("word_count", Value.num (pySplitWs text).length),
   ("char_count", Value.num text.length),
   ("analysis_type", Value.str "ocr_extraction"),
   ("summary", Value.str ("Image (" ++ toString width ++ "x" ++ toString height ++ ") with " ++ toString (pySplitWs text).length ++ " words extracted via OCR"))]

/-- `DocumentAnalyzer.supported_types`. -/
def supported_types : List (String × String) :=
  [(".pdf", "PDF Document"),
   (".doc", "Word Document"),
   (".docx", "Word Document"),
   (".xlsx", "Excel Spreadsheet"),
   (".xls", "Excel Spreadsheet"),
   (".csv", "CSV File"),
   (".png", "Image"),
   (".jpg", "Image"),
   (".jpeg", "Image"),
   (".bmp", "Image"),
   (".tiff", "Image")]

/-- `DocumentAnalyzer.get_file_type`, taking the raw `Path.suffix` of the
file path. -/
def get_file_type (path_suffix : String) : String :=
  (assoc supported_types (pyLower path_suffix)).getD "Unknown"

/-- `DocumentAnalyzer.analyze_document`, taking the raw `Path.suffix` of
the file path and the parsed content of the file on disk.  An unsupported
suffix is rejected by the final `else` before the selected branch would
touch the file; a branch given content it cannot parse models the wrapped
`ValueError` of the source's `except` blocks. -/
def analyze_document (path_suffix : String) (content : FileData) : Except DocError PyDict :=
  let suffix := pyLower path_suffix
  if suffix = ".pdf" then
    match content with
    | .pdf pages => .ok (analyze_pdf pages)
    | _ => .error (.analysisError "Error analyzing PDF")
  else if suffix = ".doc" ∨ suffix = ".docx" then
    match content with
    | .word doc => .ok (analyze_word_document doc)
    | _ => .error (.analysisError "Error analyzing Word document")
  else if suffix = ".xlsx" ∨ suffix = ".xls" then
    match content with
    | .excel sheets => .ok (analyze_excel_file sheets)
    | _ => .error (.analysisError "Error analyzing Excel file")
  else if suffix = ".csv" then
    match content with
    | .csvText data => .ok (analyze_csv_file data)
    | _ => .error (.analysisError "Error analyzing CSV file")
  else if suffix = ".png" ∨ suffix = ".jpg" ∨ suffix = ".jpeg" ∨ suffix = ".bmp" ∨ suffix = ".tiff" then
    match content with
    | .image w h mode text => .ok (analyze_image w h mode text)
    | _ => .error (.analysisError "Error analyzing image")
  else
    .error (.unsupportedFormat ("Unsupported file type: " ++ suffix))

/-! ## `AIFinancialAdvisor` (ai_service.py) -/

/-- Role-tagged chat message handed to the language-model collaborator. -/
inductive ChatMsg where
  | system (content : String)
  | user (content : String)
  | assistant (content : String)

/-- One entry of `conversation_context`: `role` is `msg.get('role')`
(absent key gives `none`), `content` is `msg.get('content', '')`. -/
structure CtxMsg where
  role : Option String
  content : String

/-- The fixed language-detection instruction of `detect_language`. -/
def detectionPrompt (text : String) : String :=
  "\n        Detect the language of the following text and respond with only the language code (e.g., 'en' for English, 'es' for Spanish, 'fr' for French, 'de' for German, 'hi' for Hindi, 'ta' for Tamil, 'te' for Telugu, 'ml' for Malayalam, 'kn' for Kannada, etc.).\n        \n        Text: " ++ text ++ "\n        \n        Language code:\n        "

/-- `AIFinancialAdvisor.detect_language`: the model is invoked on
`detectionPrompt text` and its completion is `llm_response`; the result is
the stripped, lowercased completion, or `"en"` when that is empty. -/
def detect_language (text : String) (llm_response : String) : String :=
  let _prompt := detectionPrompt text
  let detected_language := pyLower (pyStrip llm_response)
  if detected_language ≠ "" then detected_language else "en"

/-- The fixed persona-and-language system instruction of `get_advice`. -/
def adviceSystemBase (language : String) : String :=
  "\n        You are a helpful multilingual financial advisor. The user has asked a question in " ++ language ++ ".\n        IMPORTANT: You must respond in the exact same language as the user's question.\n        \n        Language guidelines:\n        - If the user writes in English, respond in English\n        - If the user writes in Tamil, respond in Tamil\n        - If the user writes in Hindi, respond in Hindi\n        - If the user writes in Spanish, respond in Spanish\n        - If the user writes in French, respond in French\n        - If the user writes in German, respond in German\n        - If the user writes in any other language, respond in that same language\n        \n        Always match the user's language exactly and provide helpful financial advice.\n        \n        "

/-- Dict lookup on an embedded value (`doc.get(k)` when `doc` is a dict). -/
def vGet (v : Value) (k : String) : Option Value :=
  match v with
  | .dict kvs => assoc kvs k
  | _ => none

/-- Dict lookup with default on an embedded value. -/
def vGetD (v : Value) (k : String) (d : Value) : Value := (vGet v k).getD d

/-- The per-document block `get_advice` appends to the system message for
one entry of `document_context`. -/
def docContextBlock (doc : Value) : String :=
  "\n📄 Document: " ++ pyStr (vGetD doc "file_name" (Value.str "Unknown")) ++ "\n" ++
  ("Type: " ++ pyStr (vGetD doc "file_type" (Value.str "Unknown")) ++ "\n") ++
  (if pyTruthyOpt (vGet doc "analysis_result") then
    let analysis := vGetD doc "analysis_result" Value.null
    ("Summary: " ++ pyStr (vGetD analysis "summary" (Value.str "No summary available")) ++ "\n") ++
    (if pyTruthyOpt (vGet analysis "text_content") then
      let text_preview :=
        match vGetD analysis "text_content" (Value.str "") with
        | .str s => pyTake s 500
        | v => pyStr v
      "Content Preview: " ++ text_preview ++ "...\n"
    else "")
  else "")

/-- The complete system-message content `get_advice` builds from the
resolved language and the optional `document_context`. -/
def adviceSystemContent (language : String) (document_context : List Value) : String :=
  adviceSystemBase language ++
  (if document_context.isEmpty then ""
   else
    "\n\nIMPORTANT DOCUMENT CONTEXT:\n" ++
    (document_context.map docContextBlock).foldl (fun acc s => acc ++ s) "" ++
    "\nUse this document context to provide more relevant and specific advice.\n")

/-- Replay of one `conversation_context` entry: a `user` entry becomes a
user turn, an `assistant` entry an assistant turn, anything else is
skipped. -/
def ctxToMsg (m : CtxMsg) : Option ChatMsg :=
  if m.role = some "user" then some (.user m.content)
  else if m.role = some "assistant" then some (.assistant m.content)
  else none

/-- `AIFinancialAdvisor.get_advice`, up to the single model invocation:
the ordered message sequence handed to the model.  `language` is the
optional explicit language; `detected_language` is the completion of
the `detect_language` call performed when it is absent. -/
def get_advice_messages (prompt : String) (language : Option String)
    (detected_language : String) (conversation_context : List CtxMsg)
    (document_context : List Value) : List ChatMsg :=
  let language := match language with
    | none => detect_language prompt detected_language
    | some l => l
  let messages : List ChatMsg := []
  let messages := messages ++ [ChatMsg.system (adviceSystemContent language document_context)]
  let messages := conversation_context.foldl
    (fun acc msg =>
      if msg.role = some "user" then acc ++ [ChatMsg.user msg.content]
      else if msg.role = some "assistant" then acc ++ [ChatMsg.assistant msg.content]
      else acc)
    messages
  messages ++ [ChatMsg.user prompt]

/-! ## `AIFinancialAdvisor.generate_document_insights` -/

/-- Excel-specific insight rules (file_type == "Excel Spreadsheet"). -/
def excelInsights (r : PyDict) : Option (List String) := do
  let base := "📊 Excel file contains " ++ pyStr (recGetD r "sheet_count" (Value.num 0)) ++ " sheets with " ++ pyStr (recGetD r "total_rows" (Value.num 0)) ++ " total rows"
  let fins ←
    if pyTruthyOpt (recGet r "potential_financial_columns") then do
      let j ← pyJoin ", " (recGetD r "potential_financial_columns" (Value.list []))
      pure ["💰 Detected financial columns: " ++ j]
    else pure []
  let nums ←
    if pyTruthyOpt (recGet r "numeric_columns") then do
      let n ← pyLen (recGetD r "numeric_columns" (Value.list []))
      pure ["📈 Contains " ++ toString n ++ " numeric columns for analysis"]
    else pure []
  pure ([base] ++ fins ++ nums)

/-- CSV-specific insight rules (file_type == "CSV File"). -/
def csvInsights (r : PyDict) : Option (List String) := do
  let base := "📋 CSV file with " ++ pyStr (recGetD r "rows" (Value.num 0)) ++ " rows and " ++ pyStr (recGetD r "columns" (Value.num 0)) ++ " columns"
  let fins ←
    if pyTruthyOpt (recGet r "potential_financial_columns") then do
      let j ← pyJoin ", " (recGetD r "potential_financial_columns" (Value.list []))
      pure ["💰 Financial data columns identified: " ++ j]
    else pure []
  pure ([base] ++ fins)

/-- PDF-specific insight rules (file_type == "PDF Document"). -/
def pdfInsights (r : PyDict) : List String :=
  ["📄 PDF document with " ++ pyStr (recGetD r "page_count" (Value.num 0)) ++ " pages",
   "📝 Contains " ++ pyStr (recGetD r "word_count" (Value.num 0)) ++ " words of text content"]

/-- Word-specific insight rules (file_type == "Word Document"). -/
def wordInsights (r : PyDict) : Option (List String) := do
  let gt ← pyGtZero (recGetD r "table_count" (Value.num 0))
  pure (["📝 Word document with " ++ pyStr (recGetD r "paragraph_count" (Value.num 0)) ++ " paragraphs"] ++
    (if gt then ["📊 Contains " ++ pyStr (recGetD r "table_count" (Value.num 0)) ++ " tables with structured data"] else []))

/-- Image-specific insight rules (file_type == "Image"). -/
def imageInsights (r : PyDict) : Option (List String) := do
  let w ← pyIndex (recGetD r "image_size" (Value.list [Value.num 0, Value.num 0])) 0
  let h ← pyIndex (recGetD r "image_size" (Value.list [Value.num 0, Value.num 0])) 1
  pure (["🖼️ Image document (" ++ pyStr w ++ "x" ++ pyStr h ++ ")",
    "🔍 OCR extracted " ++ pyStr (recGetD r "word_count" (Value.num 0)) ++ " words"])

/-- The file-type-specific `if/elif` chain of
`generate_document_insights`. -/
def fileTypeInsights (r : PyDict) : Option (List String) :=
  let file_type := recGetD r "file_type" (Value.str "Unknown")
  if valEqStr file_type "Excel Spreadsheet" then excelInsights r
  else if valEqStr file_type "CSV File" then csvInsights r
  else if valEqStr file_type "PDF Document" then some (pdfInsights r)
  else if valEqStr file_type "Word Document" then wordInsights r
  else if valEqStr file_type "Image" then imageInsights r
  else some []

/-- The fixed 20-word financial-keyword vocabulary scanned against
`text_content`. -/
def financial_keywords_text : List String :=
  ["expense", "income", "budget", "investment", "profit", "loss", "revenue", "cost", "salary", "payment", "transaction", "account", "balance", "credit", "debit", "loan", "mortgage", "insurance", "tax", "savings"]

/-- The general `text_content` keyword rule of
`generate_document_insights`. -/
def textKeywordInsights (r : PyDict) : Option (List String) :=
  if pyTruthyOpt (recGet r "text_content") then do
    let text_lower ← pyLowerV (recGetD r "text_content" (Value.str ""))
    let found_keywords := financial_keywords_text.filter (fun keyword => containsSub keyword text_lower)
    if !found_keywords.isEmpty then
      pure ["💼 Financial keywords found: " ++ joinSep ", " (found_keywords.take 5)]
    else pure []
  else some []

/-- The `potential_financial_columns` truthiness rule. -/
def expenseInsight (r : PyDict) : List String :=
  if pyTruthyOpt (recGet r "potential_financial_columns") then ["💰 Expense data found"] else []

/-- The credit/debit/balance substring test performed on
`str(analysis_result.get('column_names', [])).lower()`. -/
def creditCheck (r : PyDict) : Bool :=
  ["credit", "debit", "balance"].any (fun col =>
    containsSub col (pyLower (pyStr (recGetD r "column_names" (Value.list [])))))

/-- The credit-information rule of `generate_document_insights`. -/
def creditInsight (r : PyDict) : List String :=
  if creditCheck r then ["🏦 Credit information found"] else []

/-- `AIFinancialAdvisor.generate_document_insights`: the four rule groups
applied in source order, with `none` modelling any raised exception. -/
def generate_document_insights (r : PyDict) : Option (List String) := do
  let a ← fileTypeInsights r
  let b ← textKeywordInsights r
  pure (a ++ b ++ expenseInsight r ++ creditInsight r)

/-! ## Association-list lemmas -/

theorem assoc_recSet_self {α : Type} (l : List (String × α)) (k : String) (v : α) :
    assoc (recSet l k v) k = some v := by
  induction l with
  | nil => simp [recSet, assoc]
  | cons p l ih =>
    obtain ⟨k1, v1⟩ := p
    by_cases h : k1 = k
    · simp [recSet, assoc, h]
    · simp [recSet, assoc, h, ih]

theorem assoc_recSet_ne {α : Type} (l : List (String × α)) {k key : String} (v : α)
    (h : key ≠ k) : assoc (recSet l k v) key = assoc l key := by
  induction l with
  | nil => simp [recSet, assoc, h.symm]
  | cons p l ih =>
    obtain ⟨k1, v1⟩ := p
    by_cases h1 : k1 = k
    · subst h1
      simp [recSet, assoc, h.symm]
    · by_cases h2 : k1 = key
      · subst h2
        simp [recSet, assoc, h1, ih]
      · simp [recSet, assoc, h1, h2, ih]

theorem recGet_recSet_self (r : PyDict) (k : String) (v : Value) :
    recGet (recSet r k v) k = some v :=
  assoc_recSet_self r k v

theorem recGet_recSet_ne (r : PyDict) {k key : String} (v : Value) (h : key ≠ k) :
    recGet (recSet r k v) key = recGet r key :=
  assoc_recSet_ne r v h

theorem assoc_append {α : Type} (l₁ l₂ : List (String × α)) (key : String) :
    assoc (l₁ ++ l₂) key =
      match assoc l₁ key with
      | some v => some v
      | none => assoc l₂ key := by
  induction l₁ with
  | nil => simp [assoc]
  | cons p l ih =>
    obtain ⟨k1, v1⟩ := p
    by_cases h : k1 = key <;> simp [assoc, h, ih]

theorem excel_foldl_get_ne (sheets : List (String × DataFrame))
    (st : PyDict × List String × Nat × Nat) {key : String} (h : key ≠ "sheets") :
    recGet (sheets.foldl excelSheetStep st).1 key = recGet st.1 key := by
  induction sheets generalizing st with
  | nil => rfl
  | cons p rest ih =>
    rw [List.foldl_cons, ih]
    exact recGet_recSet_ne _ _ h

/-! ## Claim theorems: language detection, advice message order, dispatch -/

/-- Claim C4: `detect_language` returns the model completion stripped of
surrounding whitespace and lowercased, falling back to `"en"` exactly when
the stripped completion is empty; it does not depend on the input text; in
particular an empty completion on empty input yields `"en"`. -/
theorem claim_C4_detect_language :
    (∀ text llm_response : String,
      detect_language text llm_response =
        if pyLower (pyStrip llm_response) = "" then "en"
        else pyLower (pyStrip llm_response)) ∧
    (∀ text1 text2 llm_response : String,
      detect_language text1 llm_response = detect_language text2 llm_response) ∧
    detect_language "" "" = "en" := by
  refine ⟨fun text l => ?_, fun _ _ _ => rfl, rfl⟩
  by_cases h : pyLower (pyStrip l) = "" <;> simp [detect_language, h]

theorem advice_foldl_eq (ctx : List CtxMsg) (acc : List ChatMsg) :
    ctx.foldl
      (fun acc msg =>
        if msg.role = some "user" then acc ++ [ChatMsg.user msg.content]
        else if msg.role = some "assistant" then acc ++ [ChatMsg.assistant msg.content]
        else acc) acc = acc ++ ctx.filterMap ctxToMsg := by
  induction ctx generalizing acc with
  | nil => simp
  | cons m rest ih =>
    rw [List.foldl_cons, ih]
    by_cases h1 : m.role = some "user"
    · simp [ctxToMsg, h1]
    · by_cases h2 : m.role = some "assistant" <;> simp [ctxToMsg, h1, h2]

/-- Claim C3: `get_advice` hands the model exactly one system message
first, then the conversation context replayed in list order (user entries
as user turns, assistant entries as assistant turns, other roles skipped),
then the new user message last; in particular context
`[user "A", assistant "B"]` with new message `"C"` produces
`[system, user "A", assistant "B", user "C"]`. -/
theorem claim_C3_get_advice_message_order :
    (∀ (prompt : String) (language : Option String) (detected : String)
        (ctx : List CtxMsg) (dc : List Value),
      get_advice_messages prompt language detected ctx dc =
        ChatMsg.system (adviceSystemContent
            (match language with
             | none => detect_language prompt detected
             | some l => l) dc) ::
          (ctx.filterMap ctxToMsg ++ [ChatMsg.user prompt])) ∧
    get_advice_messages "C" none "en"
        [⟨some "user", "A"⟩, ⟨some "assistant", "B"⟩] [] =
      [ChatMsg.system (adviceSystemContent "en" []),
       ChatMsg.user "A", ChatMsg.assistant "B", ChatMsg.user "C"] := by
  constructor
  · intro prompt language detected ctx dc
    show (List.foldl _ ([] ++ [ChatMsg.system _]) ctx) ++ [ChatMsg.user prompt] = _
    rw [advice_foldl_eq]
    simp
  · rfl

/-- Claim C9: extension dispatch is case-insensitive — `get_file_type` and
`analyze_document` depend on the path suffix only through its lowercase
form, so every letter-case variant of a supported extension selects the
same category label and the same format analyzer as its lowercase form. -/
theorem claim_C9_case_insensitive_dispatch :
    (∀ s t : String, pyLower s = pyLower t →
      get_file_type s = get_file_type t ∧
        ∀ d : FileData, analyze_document s d = analyze_document t d) ∧
    get_file_type ".PDF" = "PDF Document" ∧
    get_file_type ".Csv" = "CSV File" ∧
    (∀ d : FileData, analyze_document ".PDF" d = analyze_document ".pdf" d) := by
  have base : ∀ s t : String, pyLower s = pyLower t →
      get_file_type s = get_file_type t ∧
        ∀ d : FileData, analyze_document s d = analyze_document t d := by
    intro s t h
    constructor
    · unfold get_file_type
      rw [h]
    · intro d
      unfold analyze_document
      rw [h]
  exact ⟨base, rfl, rfl, fun d => (base ".PDF" ".pdf" rfl).2 d⟩

/-- Witness for C9 at the concrete case variant `".PDF"`. -/
theorem claim_C9_witness :
    get_file_type ".PDF" = get_file_type ".pdf" :=
  (claim_C9_case_insensitive_dispatch.1 ".PDF" ".pdf" rfl).1

/-- Suffixes accepted by the dispatch table (the keys of
`supported_types`). -/
def supportedSuffixes : List String := supported_types.map Prod.fst

/-- Claim C2: a path whose lowercased suffix is not a supported extension
is rejected with the unsupported-format error, and the result does not
depend on the file content at all (the content argument is arbitrary and
interchangeable), modelling rejection before any file I/O. -/
theorem claim_C2_unsupported_rejected_before_io :
    ∀ s : String, pyLower s ∉ supportedSuffixes →
      ∀ d d2 : FileData,
        analyze_document s d =
          .error (.unsupportedFormat ("Unsupported file type: " ++ pyLower s)) ∧
        analyze_document s d = analyze_document s d2 := by
  intro s h d d2
  simp [supportedSuffixes, supported_types] at h
  obtain ⟨h1, h2, h3, h4, h5, h6, h7, h8, h9, h10, h11⟩ := h
  constructor <;>
    simp [analyze_document, h1, h2, h3, h4, h5, h6, h7, h8, h9, h10, h11]

/-- Witness for C2 at the unsupported extension `".txt"`. -/
theorem claim_C2_witness :
    analyze_document ".txt" (FileData.pdf []) =
      .error (.unsupportedFormat ("Unsupported file type: " ++ pyLower ".txt")) :=
  (claim_C2_unsupported_rejected_before_io ".txt" (by decide)
    (FileData.pdf []) (FileData.pdf [])).1

/-- Claim C10: a successfully analyzed Word document always carries the
`tables` key — bound to `None` when the document contributes no table
rows, and otherwise to all rows of all tables in document order, each row
the list of its cells' stripped texts — and those same rows, joined by
`" | "`, are appended to the text content after the kept paragraphs. -/
theorem claim_C10_word_tables_key :
    ∀ doc : WordDoc,
      recGet (analyze_word_document doc) "tables" =
        some (if (doc.tables.flatten.map (fun row => row.map pyStrip)).isEmpty then Value.null
              else Value.list ((doc.tables.flatten.map (fun row => row.map pyStrip)).map
                (fun row => Value.list (row.map Value.str)))) ∧
      recGet (analyze_word_document doc) "text_content" =
        some (Value.str (joinSep "\n"
          (doc.paragraphs.filter (fun p => !(pyStrip p).isEmpty) ++
           (doc.tables.flatten.map (fun row => row.map pyStrip)).map
             (fun row => joinSep " | " row)))) := by
  intro doc
  exact ⟨rfl, rfl⟩

/-! ## Claim C1: the four required record keys -/

theorem analyze_csv_keys (data : CsvData) :
    recGet (analyze_csv_file data) "file_type" = some (Value.str "CSV File") ∧
    recGet (analyze_csv_file data) "analysis_type" = some (Value.str "data_analysis") ∧
    (∃ v, recGet (analyze_csv_file data) "summary" = some (Value.str v)) ∧
    (∃ v, recGet (analyze_csv_file data) "text_content" = some (Value.str v)) := by
  simp only [analyze_csv_file]
  refine ⟨?_, ?_, ?_, ?_⟩
  · rw [recGet_recSet_ne _ _ (show ("file_type" : String) ≠ "text_content" by decide),
      recGet_recSet_ne _ _ (show ("file_type" : String) ≠ "summary" by decide),
      recGet_recSet_ne _ _ (show ("file_type" : String) ≠ "analysis_type" by decide)]
    exact recGet_recSet_self _ _ _
  · rw [recGet_recSet_ne _ _ (show ("analysis_type" : String) ≠ "text_content" by decide),
      recGet_recSet_ne _ _ (show ("analysis_type" : String) ≠ "summary" by decide)]
    exact recGet_recSet_self _ _ _
  · rw [recGet_recSet_ne _ _ (show ("summary" : String) ≠ "text_content" by decide)]
    exact ⟨_, recGet_recSet_self _ _ _⟩
  · exact ⟨_, recGet_recSet_self _ _ _⟩

theorem analyze_excel_keys (sheets : List (String × DataFrame)) :
    recGet (analyze_excel_file sheets) "file_type" = some (Value.str "Excel Spreadsheet") ∧
    recGet (analyze_excel_file sheets) "analysis_type" = some (Value.str "data_analysis") ∧
    (∃ v, recGet (analyze_excel_file sheets) "summary" = some (Value.str v)) ∧
    (∃ v, recGet (analyze_excel_file sheets) "text_content" = some (Value.str v)) := by
  simp only [analyze_excel_file]
  refine ⟨?_, ?_, ?_, ?_⟩
  · rw [recGet_recSet_ne _ _ (show ("file_type" : String) ≠ "summary" by decide),
      recGet_recSet_ne _ _ (show ("file_type" : String) ≠ "total_columns" by decide),
      recGet_recSet_ne _ _ (show ("file_type" : String) ≠ "total_rows" by decide),
      recGet_recSet_ne _ _ (show ("file_type" : String) ≠ "text_content" by decide),
      excel_foldl_get_ne _ _ (show ("file_type" : String) ≠ "sheets" by decide)]
    rfl
  · rw [recGet_recSet_ne _ _ (show ("analysis_type" : String) ≠ "summary" by decide),
      recGet_recSet_ne _ _ (show ("analysis_type" : String) ≠ "total_columns" by decide),
      recGet_recSet_ne _ _ (show ("analysis_type" : String) ≠ "total_rows" by decide),
      recGet_recSet_ne _ _ (show ("analysis_type" : String) ≠ "text_content" by decide),
      excel_foldl_get_ne _ _ (show ("analysis_type" : String) ≠ "sheets" by decide)]
    rfl
  · exact ⟨_, recGet_recSet_self _ _ _⟩
  · rw [recGet_recSet_ne _ _ (show ("text_content" : String) ≠ "summary" by decide),
      recGet_recSet_ne _ _ (show ("text_content" : String) ≠ "total_columns" by decide),
      recGet_recSet_ne _ _ (show ("text_content" : String) ≠ "total_rows" by decide)]
    exact ⟨_, recGet_recSet_self _ _ _⟩

/-- Claim C1: whenever analysis of a supported file succeeds, the returned
record binds `file_type`, `analysis_type`, `summary`, and `text_content`,
each to a (non-null) string value, regardless of which format branch
produced the record. -/
theorem claim_C1_required_record_keys :
    ∀ (s : String) (d : FileData) (r : PyDict),
      analyze_document s d = Except.ok r →
      (∃ v, recGet r "file_type" = some (Value.str v)) ∧
      (∃ v, recGet r "analysis_type" = some (Value.str v)) ∧
      (∃ v, recGet r "summary" = some (Value.str v)) ∧
      (∃ v, recGet r "text_content" = some (Value.str v)) := by
  intro s d r h
  cases d with
  | pdf pages =>
    simp only [analyze_document] at h
    repeat' split at h
    any_goals simp at h
    subst h
    exact ⟨⟨_, rfl⟩, ⟨_, rfl⟩, ⟨_, rfl⟩, ⟨_, rfl⟩⟩
  | word doc =>
    simp only [analyze_document] at h
    repeat' split at h
    any_goals simp at h
    subst h
    exact ⟨⟨_, rfl⟩, ⟨_, rfl⟩, ⟨_, rfl⟩, ⟨_, rfl⟩⟩
  | excel sheets =>
    simp only [analyze_document] at h
    repeat' split at h
    any_goals simp at h
    subst h
    obtain ⟨h1, h2, h3, h4⟩ := analyze_excel_keys sheets
    exact ⟨⟨_, h1⟩, ⟨_, h2⟩, h3, h4⟩
  | csvText data =>
    simp only [analyze_document] at h
    repeat' split at h
    any_goals simp at h
    subst h
    obtain ⟨h1, h2, h3, h4⟩ := analyze_csv_keys data
    exact ⟨⟨_, h1⟩, ⟨_, h2⟩, h3, h4⟩
  | image w hgt mode text =>
    simp only [analyze_document] at h
    repeat' split at h
    any_goals simp at h
    subst h
    exact ⟨⟨_, rfl⟩, ⟨_, rfl⟩, ⟨_, rfl⟩, ⟨_, rfl⟩⟩
  | invalid desc =>
    simp only [analyze_document] at h
    repeat' split at h
    all_goals simp at h

/-- Witness for C1 at a concrete successful PDF analysis. -/
theorem claim_C1_witness :
    (∃ v, recGet (analyze_pdf []) "file_type" = some (Value.str v)) ∧
    (∃ v, recGet (analyze_pdf []) "analysis_type" = some (Value.str v)) ∧
    (∃ v, recGet (analyze_pdf []) "summary" = some (Value.str v)) ∧
    (∃ v, recGet (analyze_pdf []) "text_content" = some (Value.str v)) :=
  claim_C1_required_record_keys ".pdf" (FileData.pdf []) (analyze_pdf []) rfl

/-! ## Claims C6 and C7: tabular analysis -/

theorem enumFrom_map_snd_general {α : Type} :
    ∀ (n : Nat) (l : List α), (l.enumFrom n).map (fun p => p.2) = l := by
  intro n l
  induction l generalizing n with
  | nil => rfl
  | cons x xs ih => simp [List.enumFrom, ih]

theorem read_csv_colnames (d : CsvData) : dfColumnNames (read_csv d) = d.header := by
  simp only [dfColumnNames, read_csv, List.map_map, Function.comp]
  exact enumFrom_map_snd_general 0 d.header

theorem zero_row_numeric_nil (header : List String) :
    dfNumericCols (read_csv ⟨header, []⟩) = [] := by
  simp only [dfNumericCols, read_csv]
  apply List.filter_eq_nil_iff.mpr
  intro c hc
  obtain ⟨p, hp, hpc⟩ := List.mem_map.mp hc
  subst hpc
  simp [colCells, inferDtype, Dtype.isNumeric]

theorem analyze_dataframe_pfc (df : DataFrame) (data_name : String) :
    recGet (analyze_dataframe df data_name) "potential_financial_columns" =
      if (financialCols df).isEmpty then none
      else some (Value.list ((financialCols df).map Value.str)) := by
  by_cases hfin : (financialCols df).isEmpty
  · by_cases hns : (dfNumericCols df).isEmpty
    all_goals simp only [analyze_dataframe, recGet, hfin, hns, if_true, if_false]
    all_goals rfl
  · by_cases hns : (dfNumericCols df).isEmpty
    all_goals simp only [analyze_dataframe, recGet, hfin, hns, if_true, if_false]
    all_goals rfl

/-- Concrete CSV of the claim: columns Date, Amount, Category, with
numeric values in Amount. -/
def csvExample : CsvData :=
  ⟨["Date", "Amount", "Category"],
   [[some "2024-01-01", some "100", some "Food"],
    [some "2024-01-02", some "250", some "Travel"]]⟩

/-- Claim C6: `potential_financial_columns` is the order-preserving
subsequence of column names whose lowercase form contains one of the
fixed financial keywords, and the key is present exactly when that
subsequence is non-empty; on the Date/Amount/Category CSV, `Amount` is in
`numeric_columns` and in `potential_financial_columns` while `Date` and
`Category` are not numeric. -/
theorem claim_C6_financial_columns :
    (∀ (df : DataFrame) (data_name : String),
      recGet (analyze_dataframe df data_name) "potential_financial_columns" =
        if ((df.cols.map Column.name).filter (fun col =>
              financial_keywords.any (fun keyword =>
                containsSub keyword (pyLower col)))).isEmpty
        then none
        else some (Value.list (((df.cols.map Column.name).filter (fun col =>
              financial_keywords.any (fun keyword =>
                containsSub keyword (pyLower col)))).map Value.str))) ∧
    (∃ l, recGet (analyze_csv_file csvExample) "numeric_columns" = some (Value.list l) ∧
      Value.str "Amount" ∈ l ∧ Value.str "Date" ∉ l ∧ Value.str "Category" ∉ l) ∧
    recGet (analyze_csv_file csvExample) "potential_financial_columns" =
      some (Value.list [Value.str "Amount"]) := by
  refine ⟨?_, ?_, ?_⟩
  · intro df data_name
    exact analyze_dataframe_pfc df data_name
  · refine ⟨[Value.str "Amount"], rfl, ?_, ?_, ?_⟩
    · simp
    · simp
    · simp
  · rfl

/-- Claim C7: a CSV parsed to a table with zero data rows yields a record
with `rows = 0`, no `numeric_statistics` key, and a text content that is
exactly the header line, the row/column-count line, and the column-names
line — no table preview. -/
theorem claim_C7_zero_row_csv :
    ∀ header : List String,
      recGet (analyze_csv_file ⟨header, []⟩) "rows" = some (Value.num 0) ∧
      recGet (analyze_csv_file ⟨header, []⟩) "numeric_statistics" = none ∧
      recGet (analyze_csv_file ⟨header, []⟩) "text_content" =
        some (Value.str (joinSep "\n"
          ["CSV File Analysis",
           "Rows: 0, Columns: " ++ toString header.length,
           "Columns: " ++ joinSep ", " header])) := by
  intro header
  have hnum := zero_row_numeric_nil header
  have hnames := read_csv_colnames ⟨header, []⟩
  have hlen : (read_csv ⟨header, []⟩).cols.length = header.length := by
    simp [read_csv]
  refine ⟨?_, ?_, ?_⟩
  · simp only [analyze_csv_file]
    rw [recGet_recSet_ne _ _ (show ("rows" : String) ≠ "text_content" by decide),
      recGet_recSet_ne _ _ (show ("rows" : String) ≠ "summary" by decide),
      recGet_recSet_ne _ _ (show ("rows" : String) ≠ "analysis_type" by decide),
      recGet_recSet_ne _ _ (show ("rows" : String) ≠ "file_type" by decide)]
    rfl
  · simp only [analyze_csv_file]
    rw [recGet_recSet_ne _ _ (show ("numeric_statistics" : String) ≠ "text_content" by decide),
      recGet_recSet_ne _ _ (show ("numeric_statistics" : String) ≠ "summary" by decide),
      recGet_recSet_ne _ _ (show ("numeric_statistics" : String) ≠ "analysis_type" by decide),
      recGet_recSet_ne _ _ (show ("numeric_statistics" : String) ≠ "file_type" by decide)]
    simp only [analyze_dataframe, recGet, hnum, List.isEmpty_nil, eq_self_iff_true, if_true]
    split <;> rfl
  · simp only [analyze_csv_file]
    rw [recGet_recSet_self]
    have hemp : dfEmpty (read_csv ⟨header, []⟩) = true := rfl
    have hn : (read_csv ⟨header, []⟩).nrows = 0 := rfl
    simp only [hemp, hnum, hnames, hlen, hn, List.length_nil,
      eq_self_iff_true, if_true, List.append_nil]
    rfl

/-! ## Claim C5: insight extraction is total on typed records -/

/-- All elements of a Python list are strings. -/
def allStrs (vs : List Value) : Bool :=
  vs.all (fun v => match v with | Value.str _ => true | _ => false)

/-- Shape check: a list of strings. -/
def isStrListValue : Value → Bool
  | .list vs => allStrs vs
  | _ => false

/-- Shape check: any list. -/
def isListValue : Value → Bool
  | .list _ => true
  | _ => false

/-- Shape check: an integer. -/
def isNumValue : Value → Bool
  | .num _ => true
  | _ => false

/-- Shape check: a string. -/
def isStrValue : Value → Bool
  | .str _ => true
  | _ => false

/-- Shape check: a list with at least two elements (the (width, height)
pair recorded as `image_size`). -/
def isPairListValue : Value → Bool
  | .list vs => decide (2 ≤ vs.length)
  | _ => false

/-- A conditionally-present field either is absent or passes its shape
check. -/
def wfField (o : Option Value) (p : Value → Bool) : Bool :=
  match o with
  | none => true
  | some v => p v

/-- Typing of an `AnalysisRecord` per the data model (§3 of the spec),
restricted to the fields `generate_document_insights` reads: each
conditionally-present field carries its documented shape. -/
def wfRecord (r : PyDict) : Bool :=
  wfField (recGet r "potential_financial_columns") isStrListValue &&
  wfField (recGet r "numeric_columns") isListValue &&
  wfField (recGet r "table_count") isNumValue &&
  wfField (recGet r "image_size") isPairListValue &&
  wfField (recGet r "text_content") isStrValue

theorem strsOf_isSome : ∀ vs : List Value, allStrs vs = true → (strsOf vs).isSome = true := by
  intro vs
  induction vs with
  | nil => intro _; rfl
  | cons v vs ih =>
    intro h
    simp only [allStrs, List.all_cons, Bool.and_eq_true] at h
    obtain ⟨h1, h2⟩ := h
    cases v with
    | str s =>
      have h3 := ih (by simpa [allStrs] using h2)
      cases hs : strsOf vs with
      | none => rw [hs] at h3; simp at h3
      | some ss => simp [strsOf, strOf, hs]
    | num n => simp at h1
    | null => simp at h1
    | list l => simp at h1
    | dict d => simp at h1

theorem pyJoin_isSome (r : PyDict) (key : String)
    (hw : wfField (recGet r key) isStrListValue = true) :
    (pyJoin ", " (recGetD r key (Value.list []))).isSome = true := by
  cases hg : recGet r key with
  | none => simp [recGetD, hg, pyJoin, strsOf]
  | some v =>
    rw [hg] at hw
    cases v with
    | list vs =>
      have := strsOf_isSome vs (by simpa [wfField, isStrListValue] using hw)
      cases hs : strsOf vs with
      | none => rw [hs] at this; simp at this
      | some ss => simp [recGetD, hg, pyJoin, hs]
    | str s => simp [wfField, isStrListValue] at hw
    | num n => simp [wfField, isStrListValue] at hw
    | null => simp [wfField, isStrListValue] at hw
    | dict d => simp [wfField, isStrListValue] at hw

theorem pyLen_isSome (r : PyDict) (key : String)
    (hw : wfField (recGet r key) isListValue = true) :
    (pyLen (recGetD r key (Value.list []))).isSome = true := by
  cases hg : recGet r key with
  | none => simp [recGetD, hg, pyLen]
  | some v =>
    rw [hg] at hw
    cases v with
    | list vs => simp [recGetD, hg, pyLen]
    | str s => simp [recGetD, hg, pyLen]
    | num n => simp [wfField, isListValue] at hw
    | null => simp [wfField, isListValue] at hw
    | dict d => simp [wfField, isListValue] at hw

theorem pyGtZero_isSome (r : PyDict)
    (hw : wfField (recGet r "table_count") isNumValue = true) :
    (pyGtZero (recGetD r "table_count" (Value.num 0))).isSome = true := by
  cases hg : recGet r "table_count" with
  | none => simp [recGetD, hg, pyGtZero]
  | some v =>
    rw [hg] at hw
    cases v with
    | num n => simp [recGetD, hg, pyGtZero]
    | str s => simp [wfField, isNumValue] at hw
    | null => simp [wfField, isNumValue] at hw
    | list l => simp [wfField, isNumValue] at hw
    | dict d => simp [wfField, isNumValue] at hw

theorem pyIndex_isSome (r : PyDict) (i : Nat) (hi : i < 2)
    (hw : wfField (recGet r "image_size") isPairListValue = true) :
    (pyIndex (recGetD r "image_size" (Value.list [Value.num 0, Value.num 0])) i).isSome = true := by
  cases hg : recGet r "image_size" with
  | none =>
    interval_cases i <;> simp [recGetD, hg, pyIndex]
  | some v =>
    rw [hg] at hw
    cases v with
    | list vs =>
      have hlen : 2 ≤ vs.length := by simpa [wfField, isPairListValue] using hw
      have hil : i < vs.length := lt_of_lt_of_le hi hlen
      simp [recGetD, hg, pyIndex, List.getElem?_eq_getElem hil]
    | str s => simp [wfField, isPairListValue] at hw
    | num n => simp [wfField, isPairListValue] at hw
    | null => simp [wfField, isPairListValue] at hw
    | dict d => simp [wfField, isPairListValue] at hw

theorem excelInsights_isSome (r : PyDict) (hw : wfRecord r = true) :
    (excelInsights r).isSome = true := by
  simp only [wfRecord, Bool.and_eq_true] at hw
  obtain ⟨⟨⟨⟨h1, h2⟩, h3⟩, h4⟩, h5⟩ := hw
  have hj := pyJoin_isSome r "potential_financial_columns" h1
  have hl := pyLen_isSome r "numeric_columns" h2
  simp only [excelInsights]
  by_cases c1 : pyTruthyOpt (recGet r "potential_financial_columns") = true
  · cases hjv : pyJoin ", " (recGetD r "potential_financial_columns" (Value.list [])) with
    | none => rw [hjv] at hj; simp at hj
    | some j =>
      by_cases c2 : pyTruthyOpt (recGet r "numeric_columns") = true
      · cases hlv : pyLen (recGetD r "numeric_columns" (Value.list [])) with
        | none => rw [hlv] at hl; simp at hl
        | some n => simp [c1, c2, hjv, hlv]
      · simp [c1, c2, hjv]
  · by_cases c2 : pyTruthyOpt (recGet r "numeric_columns") = true
    · cases hlv : pyLen (recGetD r "numeric_columns" (Value.list [])) with
      | none => rw [hlv] at hl; simp at hl
      | some n => simp [c1, c2, hlv]
    · simp [c1, c2]

theorem csvInsights_isSome (r : PyDict) (hw : wfRecord r = true) :
    (csvInsights r).isSome = true := by
  simp only [wfRecord, Bool.and_eq_true] at hw
  obtain ⟨⟨⟨⟨h1, h2⟩, h3⟩, h4⟩, h5⟩ := hw
  have hj := pyJoin_isSome r "potential_financial_columns" h1
  simp only [csvInsights]
  by_cases c1 : pyTruthyOpt (recGet r "potential_financial_columns") = true
  · cases hjv : pyJoin ", " (recGetD r "potential_financial_columns" (Value.list [])) with
    | none => rw [hjv] at hj; simp at hj
    | some j => simp [c1, hjv]
  · simp [c1]

theorem wordInsights_isSome (r : PyDict) (hw : wfRecord r = true) :
    (wordInsights r).isSome = true := by
  simp only [wfRecord, Bool.and_eq_true] at hw
  obtain ⟨⟨⟨⟨h1, h2⟩, h3⟩, h4⟩, h5⟩ := hw
  have hg := pyGtZero_isSome r h3
  simp only [wordInsights]
  cases hgv : pyGtZero (recGetD r "table_count" (Value.num 0)) with
  | none => rw [hgv] at hg; simp at hg
  | some b => simp [hgv]

theorem imageInsights_isSome (r : PyDict) (hw : wfRecord r = true) :
    (imageInsights r).isSome = true := by
  simp only [wfRecord, Bool.and_eq_true] at hw
  obtain ⟨⟨⟨⟨h1, h2⟩, h3⟩, h4⟩, h5⟩ := hw
  have hi0 := pyIndex_isSome r 0 (by decide) h4
  have hi1 := pyIndex_isSome r 1 (by decide) h4
  simp only [imageInsights]
  cases h0 : pyIndex (recGetD r "image_size" (Value.list [Value.num 0, Value.num 0])) 0 with
  | none => rw [h0] at hi0; simp at hi0
  | some w =>
    cases h1v : pyIndex (recGetD r "image_size" (Value.list [Value.num 0, Value.num 0])) 1 with
    | none => rw [h1v] at hi1; simp at hi1
    | some hgt => simp [h0, h1v]

theorem textKeywordInsights_isSome (r : PyDict) (hw : wfRecord r = true) :
    (textKeywordInsights r).isSome = true := by
  simp only [wfRecord, Bool.and_eq_true] at hw
  obtain ⟨⟨⟨⟨h1, h2⟩, h3⟩, h4⟩, h5⟩ := hw
  simp only [textKeywordInsights]
  by_cases c1 : pyTruthyOpt (recGet r "text_content") = true
  · cases hg : recGet r "text_content" with
    | none => rw [hg] at c1; simp [pyTruthyOpt] at c1
    | some v =>
      rw [hg] at h5
      cases v with
      | str s =>
        simp only [c1, if_true, recGetD, hg, Option.getD_some, pyLowerV, Option.bind_eq_bind,
          Option.some_bind]
        split <;> first | rfl | (split <;> rfl)
      | num n => simp [wfField, isStrValue] at h5
      | null => simp [wfField, isStrValue] at h5
      | list l => simp [wfField, isStrValue] at h5
      | dict d => simp [wfField, isStrValue] at h5
  · simp [c1]

theorem fileTypeInsights_isSome (r : PyDict) (hw : wfRecord r = true) :
    (fileTypeInsights r).isSome = true := by
  simp only [fileTypeInsights]
  split
  · exact excelInsights_isSome r hw
  · split
    · exact csvInsights_isSome r hw
    · split
      · rfl
      · split
        · exact wordInsights_isSome r hw
        · split
          · exact imageInsights_isSome r hw
          · rfl

/-- Minimal analysis record of the claim: only the four required keys. -/
def minimalRecord : PyDict :=
  [("file_type", Value.str "CSV File"),
   ("analysis_type", Value.str "data_analysis"),
   ("summary", Value.str ""),
   ("text_content", Value.str "")]

/-- Claim C5: insight extraction is a pure total function of the analysis
record — on every record typed per the data model it returns a value
(never raises), and on a minimal record holding only the four required
keys every missing field defaults to zero/empty, yielding exactly the
zero-count insight.  (Determinism is definitional here: the embedding is
a function, and the source reads only its argument.) -/
theorem claim_C5_insights_total :
    (∀ r : PyDict, wfRecord r = true →
      (generate_document_insights r).isSome = true) ∧
    generate_document_insights minimalRecord =
      some ["📋 CSV file with 0 rows and 0 columns"] := by
  constructor
  · intro r hw
    have ha := fileTypeInsights_isSome r hw
    have hb := textKeywordInsights_isSome r hw
    cases hav : fileTypeInsights r with
    | none => rw [hav] at ha; simp at ha
    | some a =>
      cases hbv : textKeywordInsights r with
      | none => rw [hbv] at hb; simp at hb
      | some b => simp [generate_document_insights, hav, hbv]
  · rfl

/-- Witness for C5 at the minimal record. -/
theorem claim_C5_witness :
    wfRecord minimalRecord = true ∧
    (generate_document_insights minimalRecord).isSome = true :=
  ⟨rfl, claim_C5_insights_total.1 minimalRecord rfl⟩

/-! ## Claim C8: the credit-information rule

The source tests `col in str(analysis_result.get('column_names', [])).lower()`
for the three keywords.  The rendered list interleaves the column names
with bracket/quote/comma/space characters only, and the keywords consist
of plain letters, so a keyword occurs in the rendered string exactly when
it occurs inside a single column name.  The lemmas below prove that. -/

/-- Characters contributed by the Python list rendering around and between
the element strings. -/
def sepChars : List Char := ['[', ']', '\'', ',', ' ']

/-- Char-level rendering of `repr` of one string element. -/
def quoteChars (n : List Char) : List Char := '\'' :: (n ++ ['\''])

/-- Char-level `sep.join`. -/
def icalate (sep : List Char) : List (List Char) → List Char
  | [] => []
  | [x] => x
  | x :: xs => x ++ sep ++ icalate sep xs

/-- Char-level rendering of `str` of a list of strings. -/
def renderNames (ns : List (List Char)) : List Char :=
  '[' :: (icalate [',', ' '] (ns.map quoteChars) ++ [']'])

theorem nil_infix_nil {kw : List Char} (h : kw <:+: ([] : List Char)) : kw = [] := by
  obtain ⟨p, q, hpq⟩ := h
  rcases List.append_eq_nil.mp hpq with ⟨h1, -⟩
  rcases List.append_eq_nil.mp h1 with ⟨-, h2⟩
  exact h2

theorem cons_extend {kw u : List Char} {x : Char} (h : kw <:+: u) : kw <:+: x :: u := by
  obtain ⟨p, q, hpq⟩ := h
  exact ⟨x :: p, q, by simp only [List.cons_append, hpq]⟩

theorem pre_split : ∀ (u kw : List Char) (s : Char) (v : List Char),
    kw <+: u ++ s :: v → s ∉ kw → kw <+: u := by
  intro u
  induction u with
  | nil =>
    intro kw s v h hs
    cases kw with
    | nil => exact ⟨[], rfl⟩
    | cons c k' =>
      obtain ⟨t, ht⟩ := h
      simp only [List.nil_append, List.cons_append] at ht
      injection ht with h1 h2
      exact absurd (by rw [← h1]; exact List.mem_cons_self c k') hs
  | cons x u' ih =>
    intro kw s v h hs
    cases kw with
    | nil => exact ⟨x :: u', rfl⟩
    | cons c k' =>
      obtain ⟨t, ht⟩ := h
      simp only [List.cons_append] at ht
      injection ht with h1 h2
      obtain ⟨t2, ht2⟩ := ih k' s v ⟨t, h2⟩ (fun hm => hs (List.mem_cons_of_mem c hm))
      exact ⟨t2, by simp only [List.cons_append, ht2, h1]⟩

theorem sandwich_cons {kw : List Char} {a : Char} {t : List Char}
    (h : kw <:+: a :: t) : kw <+: a :: t ∨ kw <:+: t := by
  obtain ⟨p, q, hpq⟩ := h
  cases p with
  | nil =>
    left
    exact ⟨q, by simpa using hpq⟩
  | cons y p' =>
    right
    simp only [List.cons_append] at hpq
    injection hpq with h1 h2
    exact ⟨p', q, h2⟩

theorem mid_split : ∀ (u kw : List Char) (s : Char) (v : List Char),
    kw <:+: u ++ s :: v → s ∉ kw → kw ≠ [] → kw <:+: u ∨ kw <:+: v := by
  intro u
  induction u with
  | nil =>
    intro kw s v h hs hne
    rcases sandwich_cons (by simpa using h) with hp | hi
    · cases kw with
      | nil => exact absurd rfl hne
      | cons c k' =>
        obtain ⟨t, ht⟩ := hp
        simp only [List.cons_append] at ht
        injection ht with h1 h2
        exact absurd (by rw [← h1]; exact List.mem_cons_self c k') hs
    · exact Or.inr hi
  | cons x u' ih =>
    intro kw s v h hs hne
    rcases sandwich_cons (by simpa using h) with hp | hi
    · left
      exact (pre_split (x :: u') kw s v (by simpa using hp) hs).isInfix
    · rcases ih kw s v hi hs hne with h1 | h2
      · exact Or.inl (cons_extend h1)
      · exact Or.inr h2

theorem no_sep_kw_elim {kw : List Char} (hfree : ∀ c ∈ kw, c ∉ sepChars)
    (hne : kw ≠ []) {cs : List Char} (hcs : ∀ c ∈ cs, c ∈ sepChars)
    (h : kw <:+: cs) : False := by
  cases kw with
  | nil => exact hne rfl
  | cons c k' =>
    have hmem : c ∈ cs := h.subset (List.mem_cons_self c k')
    exact hfree c (List.mem_cons_self c k') (hcs c hmem)

theorem quote_reduce {kw : List Char} (hfree : ∀ c ∈ kw, c ∉ sepChars)
    (hne : kw ≠ []) (n : List Char) :
    kw <:+: quoteChars n ↔ kw <:+: n := by
  have hq : '\'' ∉ kw := fun hm => hfree _ hm (by simp [sepChars])
  constructor
  · intro h
    rcases mid_split [] kw '\'' (n ++ ['\'']) (by simpa [quoteChars] using h) hq hne with h1 | h2
    · exact absurd (nil_infix_nil h1) hne
    · rcases mid_split n kw '\'' [] (by simpa using h2) hq hne with h3 | h4
      · exact h3
      · exact absurd (nil_infix_nil h4) hne
  · intro h
    exact h.trans ⟨['\''], ['\''], rfl⟩

theorem icalate_reduce {kw : List Char} (hfree : ∀ c ∈ kw, c ∉ sepChars)
    (hne : kw ≠ []) : ∀ ns : List (List Char),
    (kw <:+: icalate [',', ' '] (ns.map quoteChars) ↔ ∃ n ∈ ns, kw <:+: n) := by
  have hcomma : ',' ∉ kw := fun hm => hfree _ hm (by simp [sepChars])
  have hspace : ' ' ∉ kw := fun hm => hfree _ hm (by simp [sepChars])
  intro ns
  induction ns with
  | nil =>
    simp only [List.map_nil, icalate]
    constructor
    · intro h
      exact absurd (nil_infix_nil h) hne
    · rintro ⟨n, hn, -⟩
      exact absurd hn (List.not_mem_nil n)
  | cons n rest ih =>
    cases rest with
    | nil =>
      simp only [List.map_cons, List.map_nil, icalate]
      rw [quote_reduce hfree hne]
      constructor
      · intro h
        exact ⟨n, List.mem_singleton.mpr rfl, h⟩
      · rintro ⟨m, hm, hkm⟩
        rw [List.mem_singleton.mp hm] at hkm
        exact hkm
    | cons n2 rest2 =>
      constructor
      · intro h
        have h' : kw <:+: quoteChars n ++ ',' ::
            (' ' :: icalate [',', ' '] ((n2 :: rest2).map quoteChars)) := by
          simpa [icalate, List.append_assoc] using h
        rcases mid_split (quoteChars n) kw ','
            (' ' :: icalate [',', ' '] ((n2 :: rest2).map quoteChars)) h' hcomma hne with h1 | h2
        · exact ⟨n, List.mem_cons_self n _, (quote_reduce hfree hne n).mp h1⟩
        · rcases mid_split [] kw ' '
              (icalate [',', ' '] ((n2 :: rest2).map quoteChars)) (by simpa using h2)
              hspace hne with h3 | h4
          · exact absurd (nil_infix_nil h3) hne
          · obtain ⟨m, hm, hkm⟩ := ih.mp h4
            exact ⟨m, List.mem_cons_of_mem n hm, hkm⟩
      · rintro ⟨m, hm, hkm⟩
        rcases List.mem_cons.mp hm with heq | hm2
        · subst heq
          obtain ⟨p, q, hpq⟩ := (quote_reduce hfree hne m).mpr hkm
          refine ⟨p, q ++ [',', ' '] ++ icalate [',', ' '] ((n2 :: rest2).map quoteChars), ?_⟩
          simp only [icalate, List.map_cons, ← List.append_assoc, hpq]
        · obtain ⟨p, q, hpq⟩ := ih.mpr ⟨m, hm2, hkm⟩
          refine ⟨quoteChars n ++ [',', ' '] ++ p, q, ?_⟩
          simp only [List.map_cons, icalate, List.append_assoc, hpq]

theorem render_reduce {kw : List Char} (hfree : ∀ c ∈ kw, c ∉ sepChars)
    (hne : kw ≠ []) (ns : List (List Char)) :
    kw <:+: renderNames ns ↔ ∃ n ∈ ns, kw <:+: n := by
  have hlb : '[' ∉ kw := fun hm => hfree _ hm (by simp [sepChars])
  have hrb : ']' ∉ kw := fun hm => hfree _ hm (by simp [sepChars])
  rw [← icalate_reduce hfree hne ns]
  constructor
  · intro h
    rcases mid_split [] kw '['
        (icalate [',', ' '] (ns.map quoteChars) ++ [']'])
        (by simpa [renderNames] using h) hlb hne with h1 | h2
    · exact absurd (nil_infix_nil h1) hne
    · rcases mid_split (icalate [',', ' '] (ns.map quoteChars)) kw ']' []
          (by simpa using h2) hrb hne with h3 | h4
      · exact h3
      · exact absurd (nil_infix_nil h4) hne
  · intro h
    obtain ⟨p, q, hpq⟩ := h
    exact ⟨'[' :: p, q ++ [']'], by simp [renderNames, ← hpq, List.append_assoc]⟩

theorem string_data_append (a b : String) : (a ++ b).data = a.data ++ b.data := rfl

theorem pyLower_data (s : String) : (pyLower s).data = s.data.map Char.toLower := rfl

theorem quote_str_data (s : String) : ("'" ++ s ++ "'").data = quoteChars s.data := rfl

theorem joinSep_data (sep : String) :
    ∀ l : List String, (joinSep sep l).data = icalate sep.data (l.map String.data) := by
  intro l
  induction l with
  | nil => rfl
  | cons x xs ih =>
    cases xs with
    | nil => rfl
    | cons y ys =>
      show (x ++ sep ++ joinSep sep (y :: ys)).data = _
      simp only [string_data_append, ih, List.map_cons, icalate]

theorem pyReprList_strs :
    ∀ names : List String, pyReprList (names.map Value.str) = names.map (fun s => "'" ++ s ++ "'") := by
  intro names
  induction names with
  | nil => rfl
  | cons n ns ih => simp [pyReprList, pyRepr, ih]

theorem pyStr_strlist_data (names : List String) :
    (pyStr (Value.list (names.map Value.str))).data = renderNames (names.map String.data) := by
  show ("[" ++ joinSep ", " (pyReprList (names.map Value.str)) ++ "]").data = _
  rw [pyReprList_strs]
  simp only [string_data_append, joinSep_data, renderNames, List.map_map]
  have hq : (fun s => ("'" ++ s ++ "'")) = (fun s : String => String.mk (quoteChars s.data)) := by
    funext s
    rfl
  simp only [hq, List.map_map]
  have hcomp : (String.data ∘ fun s : String => String.mk (quoteChars s.data)) =
      (quoteChars ∘ String.data) := by
    funext s
    rfl
  rw [hcomp]
  simp

theorem map_toLower_quote (n : List Char) :
    (quoteChars n).map Char.toLower = quoteChars (n.map Char.toLower) := by
  have h : Char.toLower '\'' = '\'' := by decide
  simp [quoteChars, h]

theorem map_toLower_icalate : ∀ ns : List (List Char),
    (icalate [',', ' '] ns).map Char.toLower =
      icalate [',', ' '] (ns.map (fun n => n.map Char.toLower)) := by
  intro ns
  induction ns with
  | nil => rfl
  | cons n rest ih =>
    cases rest with
    | nil => rfl
    | cons n2 rest2 =>
      have hc : Char.toLower ',' = ',' := by decide
      have hs : Char.toLower ' ' = ' ' := by decide
      simp [icalate, ih, hc, hs]

theorem map_toLower_render (ns : List (List Char)) :
    (renderNames ns).map Char.toLower = renderNames (ns.map (fun n => n.map Char.toLower)) := by
  have h1 : Char.toLower '[' = '[' := by decide
  have h2 : Char.toLower ']' = ']' := by decide
  simp only [renderNames, List.map_cons, List.map_append, map_toLower_icalate, List.map_map, h1, h2]
  have hcomp : ((fun n : List Char => n.map Char.toLower) ∘ quoteChars) =
      (quoteChars ∘ fun n : List Char => n.map Char.toLower) := by
    funext n
    exact map_toLower_quote n
  simp [hcomp]

theorem containsSub_lower_render (kw : String) (names : List String)
    (hfree : ∀ c ∈ kw.data, c ∉ sepChars) (hne : kw.data ≠ []) :
    (containsSub kw (pyLower (pyStr (Value.list (names.map Value.str)))) = true ↔
      ∃ n ∈ names, containsSub kw (pyLower n) = true) := by
  simp only [containsSub, decide_eq_true_eq]
  rw [pyLower_data, pyStr_strlist_data, map_toLower_render]
  rw [render_reduce hfree hne]
  constructor
  · rintro ⟨m, hm, hkm⟩
    simp only [List.map_map, List.mem_map, Function.comp] at hm
    obtain ⟨n, hn, hnm⟩ := hm
    refine ⟨n, hn, ?_⟩
    rw [pyLower_data]
    rw [hnm]
    exact hkm
  · rintro ⟨n, hn, hkn⟩
    refine ⟨n.data.map Char.toLower, ?_, ?_⟩
    · simp only [List.map_map, List.mem_map, Function.comp]
      exact ⟨n, hn, rfl⟩
    · rw [pyLower_data] at hkn
      exact hkn

theorem credit_kw_facts (kw : String) (hkw : kw ∈ ["credit", "debit", "balance"]) :
    (∀ c ∈ kw.data, c ∉ sepChars) ∧ kw.data ≠ [] := by
  fin_cases hkw <;> exact ⟨by decide, by decide⟩

theorem creditCheck_names (r : PyDict) (names : List String)
    (hnames : recGetD r "column_names" (Value.list []) = Value.list (names.map Value.str)) :
    (creditCheck r = true ↔
      names.any (fun n => ["credit", "debit", "balance"].any
        (fun kw => containsSub kw (pyLower n))) = true) := by
  simp only [creditCheck, hnames, List.any_eq_true]
  constructor
  · rintro ⟨kw, hkw, hc⟩
    obtain ⟨hfree, hne⟩ := credit_kw_facts kw hkw
    obtain ⟨n, hn, hcn⟩ := (containsSub_lower_render kw names hfree hne).mp hc
    exact ⟨n, hn, kw, hkw, hcn⟩
  · rintro ⟨n, hn, kw, hkw, hcn⟩
    obtain ⟨hfree, hne⟩ := credit_kw_facts kw hkw
    exact ⟨kw, hkw, (containsSub_lower_render kw names hfree hne).mpr ⟨n, hn, hcn⟩⟩

/-- First character of a string, used to separate the distinct insight
templates. -/
def headChar (s : String) : Option Char := s.data.head?

theorem headChar_append (a b : String) (c : Char) (h : headChar a = some c) :
    headChar (a ++ b) = some c := by
  unfold headChar at h ⊢
  rw [string_data_append]
  cases hd : a.data with
  | nil => rw [hd] at h; exact absurd h (by simp)
  | cons x xs => rw [hd] at h; simpa using h

theorem ne_credit_of_head {x : String} {c : Char} (h : headChar x = some c)
    (hc : c ≠ '🏦') : x ≠ "🏦 Credit information found" := by
  intro he
  apply hc
  have h2 : headChar "🏦 Credit information found" = some '🏦' := rfl
  rw [he, h2] at h
  exact (Option.some_inj.mp h).symm

theorem excelInsights_no_credit (r : PyDict) (l : List String)
    (h : excelInsights r = some l) : "🏦 Credit information found" ∉ l := by
  have hbase : ("📊 Excel file contains " ++ pyStr (recGetD r "sheet_count" (Value.num 0)) ++ " sheets with " ++ pyStr (recGetD r "total_rows" (Value.num 0)) ++ " total rows") ≠ "🏦 Credit information found" :=
    ne_credit_of_head (headChar_append _ _ _ (headChar_append _ _ _ (headChar_append _ _ _
      (headChar_append _ _ _ (show headChar "📊 Excel file contains " = some '📊' from rfl)))))
      (by decide)
  have hfins : ∀ j : String, ("💰 Detected financial columns: " ++ j) ≠ "🏦 Credit information found" := fun j =>
    ne_credit_of_head (headChar_append _ _ _
      (show headChar "💰 Detected financial columns: " = some '💰' from rfl)) (by decide)
  have hnums : ∀ n : Nat, ("📈 Contains " ++ toString n ++ " numeric columns for analysis") ≠ "🏦 Credit information found" := fun n =>
    ne_credit_of_head (headChar_append _ _ _ (headChar_append _ _ _
      (show headChar "📈 Contains " = some '📈' from rfl))) (by decide)
  by_cases c1 : pyTruthyOpt (recGet r "potential_financial_columns") = true
  · cases hj : pyJoin ", " (recGetD r "potential_financial_columns" (Value.list [])) with
    | none => simp [excelInsights, c1, hj] at h
    | some j =>
      by_cases c2 : pyTruthyOpt (recGet r "numeric_columns") = true
      · cases hl : pyLen (recGetD r "numeric_columns" (Value.list [])) with
        | none => simp [excelInsights, c1, c2, hj, hl] at h
        | some n =>
          simp only [excelInsights, c1, c2, hj, hl, if_true, Option.some_bind] at h
          injection h with h
          subst h
          intro hmem
          simp only [List.cons_append, List.nil_append, List.mem_cons,
            List.not_mem_nil, or_false] at hmem
          rcases hmem with he | he | he
          · exact hbase he.symm
          · exact hfins j he.symm
          · exact hnums n he.symm
      · cases hl2 : pyLen (recGetD r "numeric_columns" (Value.list [])) <;>
          simp only [excelInsights, c1, c2, hj, hl2, if_true, if_false, Option.some_bind] at h
        all_goals injection h with h
        all_goals subst h
        all_goals intro hmem
        all_goals simp only [List.cons_append, List.nil_append, List.append_nil, List.mem_cons,
          List.not_mem_nil, or_false] at hmem
        all_goals rcases hmem with he | he
        all_goals first
          | exact hbase he.symm
          | exact hfins j he.symm
  · by_cases c2 : pyTruthyOpt (recGet r "numeric_columns") = true
    · cases hl : pyLen (recGetD r "numeric_columns" (Value.list [])) with
      | none => simp [excelInsights, c1, c2, hl] at h
      | some n =>
        simp only [excelInsights, c1, c2, hl, if_true, if_false, Option.some_bind] at h
        injection h with h
        subst h
        intro hmem
        simp only [List.cons_append, List.nil_append, List.mem_cons,
          List.not_mem_nil, or_false] at hmem
        rcases hmem with he | he
        · exact hbase he.symm
        · exact hnums n he.symm
    · simp only [excelInsights, c1, c2, if_false, Option.some_bind] at h
      injection h with h
      subst h
      intro hmem
      simp only [List.cons_append, List.nil_append, List.append_nil, List.mem_cons,
        List.not_mem_nil, or_false] at hmem
      exact hbase hmem.symm

theorem csvInsights_no_credit (r : PyDict) (l : List String)
    (h : csvInsights r = some l) : "🏦 Credit information found" ∉ l := by
  have hbase : ("📋 CSV file with " ++ pyStr (recGetD r "rows" (Value.num 0)) ++ " rows and " ++ pyStr (recGetD r "columns" (Value.num 0)) ++ " columns") ≠ "🏦 Credit information found" :=
    ne_credit_of_head (headChar_append _ _ _ (headChar_append _ _ _ (headChar_append _ _ _
      (headChar_append _ _ _ (show headChar "📋 CSV file with " = some '📋' from rfl)))))
      (by decide)
  have hfins : ∀ j : String, ("💰 Financial data columns identified: " ++ j) ≠ "🏦 Credit information found" := fun j =>
    ne_credit_of_head (headChar_append _ _ _
      (show headChar "💰 Financial data columns identified: " = some '💰' from rfl)) (by decide)
  by_cases c1 : pyTruthyOpt (recGet r "potential_financial_columns") = true
  · cases hj : pyJoin ", " (recGetD r "potential_financial_columns" (Value.list [])) with
    | none => simp [csvInsights, c1, hj] at h
    | some j =>
      simp only [csvInsights, c1, hj, if_true, Option.some_bind] at h
      injection h with h
      subst h
      intro hmem
      simp only [List.cons_append, List.nil_append, List.mem_cons,
        List.not_mem_nil, or_false] at hmem
      rcases hmem with he | he
      · exact hbase he.symm
      · exact hfins j he.symm
  · simp only [csvInsights, c1, if_false, Option.some_bind] at h
    injection h with h
    subst h
    intro hmem
    simp only [List.cons_append, List.nil_append, List.append_nil, List.mem_cons,
      List.not_mem_nil, or_false] at hmem
    exact hbase hmem.symm

theorem wordInsights_no_credit (r : PyDict) (l : List String)
    (h : wordInsights r = some l) : "🏦 Credit information found" ∉ l := by
  have hpara : ("📝 Word document with " ++ pyStr (recGetD r "paragraph_count" (Value.num 0)) ++ " paragraphs") ≠ "🏦 Credit information found" :=
    ne_credit_of_head (headChar_append _ _ _ (headChar_append _ _ _
      (show headChar "📝 Word document with " = some '📝' from rfl))) (by decide)
  have htab : ("📊 Contains " ++ pyStr (recGetD r "table_count" (Value.num 0)) ++ " tables with structured data") ≠ "🏦 Credit information found" :=
    ne_credit_of_head (headChar_append _ _ _ (headChar_append _ _ _
      (show headChar "📊 Contains " = some '📊' from rfl))) (by decide)
  cases hg : pyGtZero (recGetD r "table_count" (Value.num 0)) with
  | none => simp [wordInsights, hg] at h
  | some b =>
    cases b with
    | true =>
      simp [wordInsights, hg] at h
      subst h
      intro hmem
      simp only [List.cons_append, List.nil_append, List.mem_cons,
        List.not_mem_nil, or_false] at hmem
      rcases hmem with he | he
      · exact hpara he.symm
      · exact htab he.symm
    | false =>
      simp [wordInsights, hg] at h
      subst h
      intro hmem
      simp only [List.mem_cons, List.not_mem_nil, or_false] at hmem
      exact hpara hmem.symm

theorem imageInsights_no_credit (r : PyDict) (l : List String)
    (h : imageInsights r = some l) : "🏦 Credit information found" ∉ l := by
  cases h0 : pyIndex (recGetD r "image_size" (Value.list [Value.num 0, Value.num 0])) 0 with
  | none => simp [imageInsights, h0] at h
  | some w =>
    cases h1 : pyIndex (recGetD r "image_size" (Value.list [Value.num 0, Value.num 0])) 1 with
    | none => simp [imageInsights, h0, h1] at h
    | some hgt =>
      have hdim : ("🖼️ Image document (" ++ pyStr w ++ "x" ++ pyStr hgt ++ ")") ≠ "🏦 Credit information found" :=
        ne_credit_of_head (headChar_append _ _ _ (headChar_append _ _ _ (headChar_append _ _ _
          (headChar_append _ _ _ (show headChar "🖼️ Image document (" = some '🖼' from rfl)))))
          (by decide)
      have hocr : ("🔍 OCR extracted " ++ pyStr (recGetD r "word_count" (Value.num 0)) ++ " words") ≠ "🏦 Credit information found" :=
        ne_credit_of_head (headChar_append _ _ _ (headChar_append _ _ _
          (show headChar "🔍 OCR extracted " = some '🔍' from rfl))) (by decide)
      simp only [imageInsights, h0, h1, Option.some_bind] at h
      injection h with h
      subst h
      intro hmem
      simp only [List.mem_cons, List.not_mem_nil, or_false] at hmem
      rcases hmem with he | he
      · exact hdim he.symm
      · exact hocr he.symm

theorem textKeywordInsights_no_credit (r : PyDict) (l : List String)
    (h : textKeywordInsights r = some l) : "🏦 Credit information found" ∉ l := by
  have hkw : ∀ tl : List String, ("💼 Financial keywords found: " ++ joinSep ", " tl) ≠ "🏦 Credit information found" := fun tl =>
    ne_credit_of_head (headChar_append _ _ _
      (show headChar "💼 Financial keywords found: " = some '💼' from rfl)) (by decide)
  simp only [textKeywordInsights] at h
  by_cases c1 : pyTruthyOpt (recGet r "text_content") = true
  · rw [if_pos c1] at h
    cases hlv : pyLowerV (recGetD r "text_content" (Value.str "")) with
    | none => rw [hlv] at h; simp at h
    | some tl =>
      rw [hlv] at h
      simp only [Option.bind_eq_bind, Option.some_bind'] at h
      split at h
      · injection h with h
        subst h
        intro hmem
        simp only [List.mem_cons, List.not_mem_nil, or_false] at hmem
        exact hkw _ hmem.symm
      · injection h with h
        subst h
        exact List.not_mem_nil _
  · rw [if_neg c1] at h
    injection h with h
    subst h
    exact List.not_mem_nil _

theorem fileTypeInsights_no_credit (r : PyDict) (l : List String)
    (h : fileTypeInsights r = some l) : "🏦 Credit information found" ∉ l := by
  simp only [fileTypeInsights] at h
  split at h
  · exact excelInsights_no_credit r l h
  · split at h
    · exact csvInsights_no_credit r l h
    · split at h
      · injection h with h
        subst h
        intro hmem
        simp only [pdfInsights, List.mem_cons, List.not_mem_nil, or_false] at hmem
        rcases hmem with he | he
        · exact (ne_credit_of_head (headChar_append _ _ _ (headChar_append _ _ _
            (show headChar "📄 PDF document with " = some '📄' from rfl))) (by decide)) he.symm
        · exact (ne_credit_of_head (headChar_append _ _ _ (headChar_append _ _ _
            (show headChar "📝 Contains " = some '📝' from rfl))) (by decide)) he.symm
      · split at h
        · exact wordInsights_no_credit r l h
        · split at h
          · exact imageInsights_no_credit r l h
          · injection h with h
            subst h
            exact List.not_mem_nil _

/-- Claim C8: the insight list contains the credit-information insight if
and only if some entry of the record's `column_names` case-insensitively
contains `credit`, `debit`, or `balance` as a substring. -/
theorem claim_C8_credit_insight :
    ∀ (r : PyDict) (l : List String) (names : List String),
      generate_document_insights r = some l →
      recGetD r "column_names" (Value.list []) = Value.list (names.map Value.str) →
      ("🏦 Credit information found" ∈ l ↔
        names.any (fun n => ["credit", "debit", "balance"].any
          (fun kw => containsSub kw (pyLower n))) = true) := by
  intro r l names h hnames
  cases ha : fileTypeInsights r with
  | none => rw [generate_document_insights, ha] at h; simp at h
  | some a =>
    cases hb : textKeywordInsights r with
    | none => rw [generate_document_insights, ha, hb] at h; simp at h
    | some b =>
      rw [generate_document_insights, ha, hb] at h
      simp only [Option.bind_eq_bind, Option.some_bind'] at h
      injection h with h
      subst h
      rw [← creditCheck_names r names hnames]
      constructor
      · intro hmem
        rcases List.mem_append.mp hmem with hm | hm
        · rcases List.mem_append.mp hm with hm2 | hm2
          · rcases List.mem_append.mp hm2 with hm3 | hm3
            · exact absurd hm3 (fileTypeInsights_no_credit r a ha)
            · exact absurd hm3 (textKeywordInsights_no_credit r b hb)
          · by_cases hc : pyTruthyOpt (recGet r "potential_financial_columns") = true
            · rw [expenseInsight, if_pos hc] at hm2
              have : ("🏦 Credit information found" : String) = "💰 Expense data found" :=
                List.mem_singleton.mp hm2
              exact absurd this (by decide)
            · rw [expenseInsight, if_neg hc] at hm2
              exact absurd hm2 (List.not_mem_nil _)
        · by_cases hcc : creditCheck r = true
          · exact hcc
          · rw [creditInsight, if_neg hcc] at hm
            exact absurd hm (List.not_mem_nil _)
      · intro hcc
        have hci : creditInsight r = ["🏦 Credit information found"] := by
          rw [creditInsight, if_pos hcc]
        apply List.mem_append.mpr
        right
        rw [hci]
        exact List.mem_singleton.mpr rfl

/-- Witness for C8 at a record with a single `Credit Score` column. -/
theorem claim_C8_witness :
    ("🏦 Credit information found" ∈ ["🏦 Credit information found"] ↔
      ["Credit Score"].any (fun n => ["credit", "debit", "balance"].any
        (fun kw => containsSub kw (pyLower n))) = true) :=
  claim_C8_credit_insight [("column_names", Value.list [Value.str "Credit Score"])]
    ["🏦 Credit information found"] ["Credit Score"] rfl rfl
